import Mathlib

/-!
Shallow embedding of the contact-book bot (`HW_7_Bot.py`): field validators
(`Phone`, `Birthday`), `Record` with its phone operations, `AddressBook`
as an insertion-ordered association list mirroring a Python `dict`, the
upcoming-birthday query `find_next_birthday`, and the `add_contact`
command handler.  Python `datetime.date` values are modelled by a civil
`Date` triple together with rata-die day numbers for comparison, day
difference and day addition; `datetime.strptime(_, "%d.%m.%Y")` is
modelled by `parseDate`, component-faithful to CPython's `_strptime`
regexes for that format (day `3[0-1]|[1-2]\d|0[1-9]|[1-9]| [1-9]`,
month `1[0-2]|0[1-9]|[1-9]`, year `\d\d\d\d`, literal dots, full
match, then calendar validity as checked by the `datetime`
constructor), with `\d` and `int()` covering the full Unicode decimal
digits and `str.isdigit` additionally the `Numeric_Type=Digit`
characters, both encoded from the Unicode 14 tables shipped with
CPython 3.11.
-/

namespace HW7

/-! ## Calendar arithmetic (model of Python `datetime.date`) -/

/-- Gregorian leap-year rule, as used by Python `datetime`. -/
def isLeap (y : Nat) : Bool := y % 4 == 0 && (y % 100 != 0 || y % 400 == 0)

/-- Length of month `m` of year `y`. -/
def daysInMonth (y m : Nat) : Nat :=
  if m = 2 then (if isLeap y then 29 else 28)
  else if m = 4 ∨ m = 6 ∨ m = 9 ∨ m = 11 then 30
  else 31

/-- A civil date, `year`-`month`-`day`. -/
structure Date where
  year : Nat
  month : Nat
  day : Nat
deriving DecidableEq, Repr

/-- Days in the months strictly before month `m` (`leap` for the
surrounding year). -/
def daysBeforeMonth (leap : Bool) (m : Nat) : Nat :=
  let l : Nat := if leap then 1 else 0
  match m with
  | 1 => 0
  | 2 => 31
  | 3 => 59 + l
  | 4 => 90 + l
  | 5 => 120 + l
  | 6 => 151 + l
  | 7 => 181 + l
  | 8 => 212 + l
  | 9 => 243 + l
  | 10 => 273 + l
  | 11 => 304 + l
  | 12 => 334 + l
  | _ => 0

/-- Rata-die day number: `toRD ⟨1, 1, 1⟩ = 1`, matching
`date.toordinal()` in Python. -/
def toRD (dt : Date) : Nat :=
  365 * (dt.year - 1) + (dt.year - 1) / 4 - (dt.year - 1) / 100 + (dt.year - 1) / 400
    + daysBeforeMonth (isLeap dt.year) dt.month + dt.day

/-- Python `date.weekday()`: Monday = 0 … Sunday = 6. -/
def weekday (dt : Date) : Nat := (toRD dt + 6) % 7

/-- The `datetime(year, month, day)` constructor: `some` exactly on valid
calendar dates in Python's supported year range, `none` models the
`ValueError` it raises otherwise. -/
def mkDate (y m d : Nat) : Option Date :=
  if 1 ≤ y ∧ y ≤ 9999 ∧ 1 ≤ m ∧ m ≤ 12 ∧ 1 ≤ d ∧ d ≤ daysInMonth y m then
    some ⟨y, m, d⟩
  else none

/-- Inverse of `toRD` (civil-from-days). -/
def fromRD (rd : Nat) : Date :=
  let z := rd + 305
  let era := z / 146097
  let doe := z % 146097
  let yoe := (doe - doe / 1460 + doe / 36524 - doe / 146096) / 365
  let y := yoe + era * 400
  let doy := doe - (365 * yoe + yoe / 4 - yoe / 100)
  let mp := (5 * doy + 2) / 153
  let d := doy - (153 * mp + 2) / 5 + 1
  let m := if mp < 10 then mp + 3 else mp - 9
  ⟨if m ≤ 2 then y + 1 else y, m, d⟩

/-- Python `date + timedelta(days = n)` for `n ≥ 0`. -/
def addDays (dt : Date) (n : Nat) : Date := fromRD (toRD dt + n)

/-- Two-digit zero padding, as in `strftime` `%m` / `%d`. -/
def pad2 (n : Nat) : String := if n < 10 then "0" ++ toString n else toString n

/-- Four-digit zero padding, as in `strftime` `%Y`. -/
def pad4 (n : Nat) : String :=
  if n < 10 then "000" ++ toString n
  else if n < 100 then "00" ++ toString n
  else if n < 1000 then "0" ++ toString n
  else toString n

/-- `congrats_date.strftime("%Y.%m.%d")`. -/
def fmtDate (dt : Date) : String :=
  pad4 dt.year ++ "." ++ pad2 dt.month ++ "." ++ pad2 dt.day

/-! ## Field validators -/

/-- Value of a list of ASCII decimal-digit characters. -/
def digitsToNat (cs : List Char) : Nat :=
  cs.foldl (fun a c => 10 * a + (c.toNat - 48)) 0

/-- Starts of the contiguous runs of Unicode decimal digits (category
`Nd`): the characters matched by `\d` in CPython's regexes and valued
by `int()`.  Every run is exactly ten characters with decimal values
0..9 in code-point order (Unicode 14, as shipped with CPython 3.11). -/
def ndRunStarts : List Nat := [
  48, 1632, 1776, 1984, 2406, 2534, 2662, 2790, 2918, 3046, 3174, 3302,
  3430, 3558, 3664, 3792, 3872, 4160, 4240, 6112, 6160, 6470, 6608, 6784,
  6800, 6992, 7088, 7232, 7248, 42528, 43216, 43264, 43472, 43504, 43600, 44016,
  65296, 66720, 68912, 69734, 69872, 69942, 70096, 70384, 70736, 70864, 71248, 71360,
  71472, 71904, 72016, 72784, 73040, 73120, 92768, 92864, 93008, 120782, 120792, 120802,
  120812, 120822, 123200, 123632, 125264, 130032]

/-- Is `c` a Unicode decimal digit (category `Nd`)? -/
def isNd (c : Char) : Bool :=
  ndRunStarts.any (fun s => s ≤ c.toNat && c.toNat ≤ s + 9)

/-- Decimal value of a Unicode decimal digit; 0 on other characters. -/
def ndVal (c : Char) : Nat :=
  match ndRunStarts.find? (fun s => s ≤ c.toNat && c.toNat ≤ s + 9) with
  | some s => c.toNat - s
  | none => 0

/-- Value of a matched component as computed by `int()`: Unicode decimal
digits carry their decimal value; the leading space the `%d` pattern can
admit contributes nothing, exactly as `int()` strips it. -/
def ndToNat (cs : List Char) : Nat := cs.foldl (fun a c => 10 * a + ndVal c) 0

/-- Code-point ranges of the non-decimal characters that Python
`str.isdigit` additionally accepts (`Numeric_Type=Digit`: superscripts,
circled digits, ...; Unicode 14). -/
def digitExtraRanges : List (Nat × Nat) := [
  (178, 179), (185, 185), (4969, 4977), (6618, 6618), (8304, 8304),
  (8308, 8313), (8320, 8329), (9312, 9320), (9332, 9340), (9352, 9360),
  (9450, 9450), (9461, 9469), (9471, 9471), (10102, 10110), (10112, 10120),
  (10122, 10130), (68160, 68163), (69216, 69224), (69714, 69722), (127232, 127242)]

/-- Python `str.isdigit` on a single character: a decimal digit of any
script, or a `Numeric_Type=Digit` character such as a superscript. -/
def pyIsDigit (c : Char) : Bool :=
  isNd c || digitExtraRanges.any (fun r => r.1 ≤ c.toNat && c.toNat ≤ r.2)

/-- Python `str.isdigit` on strings: nonempty and every character a
digit character. -/
def isdigitStr (s : String) : Bool := !s.isEmpty && s.data.all pyIsDigit

/-- The check in the `Phone.value` setter: `len(value) == 10 and
value.isdigit()`. -/
def phoneCheck (raw : String) : Bool := raw.length == 10 && isdigitStr raw

/-- `Phone(raw)`: stores the string when `phoneCheck` passes, otherwise
raises `ValueError("Invalid phone number")`. -/
def mkPhone (raw : String) : Except String String :=
  if phoneCheck raw then .ok raw else .error "Invalid phone number"

/-- `str.split` on a single dot, on character lists. -/
def splitDots : List Char → List (List Char)
  | [] => [[]]
  | c :: cs =>
    if c = '.' then [] :: splitDots cs
    else
      match splitDots cs with
      | [] => [[c]]
      | p :: ps => (c :: p) :: ps

/-- The day pattern of CPython's `_strptime` for `%d`:
`3[0-1]|[1-2]\d|0[1-9]|[1-9]| [1-9]`, matched against a whole
between-dot component (the bracketed classes are ASCII literals, while
`\d` matches any Unicode decimal digit; a fixed-length alternative
followed by the literal dot matches exactly a whole component). -/
def dayPat : List Char → Bool
  | [c] => '1' ≤ c && c ≤ '9'
  | [c1, c2] =>
    (c1 == '3' && (c2 == '0' || c2 == '1')) ||
    ((c1 == '1' || c1 == '2') && isNd c2) ||
    (c1 == '0' && ('1' ≤ c2 && c2 ≤ '9')) ||
    (c1 == ' ' && ('1' ≤ c2 && c2 ≤ '9'))
  | _ => false

/-- The month pattern for `%m`: `1[0-2]|0[1-9]|[1-9]`, ASCII only. -/
def monthPat : List Char → Bool
  | [c] => '1' ≤ c && c ≤ '9'
  | [c1, c2] =>
    (c1 == '1' && ('0' ≤ c2 && c2 ≤ '2')) ||
    (c1 == '0' && ('1' ≤ c2 && c2 ≤ '9'))
  | _ => false

/-- The year pattern for `%Y`: `\d\d\d\d`, four Unicode decimal
digits. -/
def yearPat (cs : List Char) : Bool := cs.length == 4 && cs.all isNd

/-- `datetime.strptime(raw, "%d.%m.%Y").date()` on character lists:
CPython matches day, literal dot, month, literal dot, year with the
patterns above, requires the whole string to be consumed, converts the
components with `int()`, and the `datetime` constructor then rejects the
out-of-range dates (day beyond month length, year outside 1..9999).
Returns `(day, month, year)`. -/
def parseDateChars (cs : List Char) : Option (Nat × Nat × Nat) :=
  match splitDots cs with
  | [ds, ms, ys] =>
    if dayPat ds && monthPat ms && yearPat ys then
      match mkDate (ndToNat ys) (ndToNat ms) (ndToNat ds) with
      | some _ => some (ndToNat ds, ndToNat ms, ndToNat ys)
      | none => none
    else none
  | _ => none

/-- `datetime.strptime(raw, "%d.%m.%Y")` on strings. -/
def parseDate (raw : String) : Option (Nat × Nat × Nat) := parseDateChars raw.data

/-- `Birthday(raw)`: on parse success stores the raw string (the
`super().__init__(value)` call overwrites the parsed date with the
original text), otherwise raises the date-format `ValueError`. -/
def mkBirthday (raw : String) : Except String String :=
  match parseDate raw with
  | some _ => .ok raw
  | none => .error "Incorrect date format, please enter in the format: dd.mm.yyyy"

/-- The strict `DD.MM.YYYY` pattern of the specification: exactly two
digit characters, a dot, two digits, a dot, four digits, denoting a valid
calendar date. -/
def matchesDDMMYYYY (raw : String) : Bool :=
  match raw.data with
  | [d1, d2, p1, m1, m2, p2, y1, y2, y3, y4] =>
    p1 == '.' && p2 == '.' &&
    [d1, d2, m1, m2, y1, y2, y3, y4].all Char.isDigit &&
    (mkDate (digitsToNat [y1, y2, y3, y4]) (digitsToNat [m1, m2])
      (digitsToNat [d1, d2])).isSome
  | _ => false

/-! ## Contact records -/

/-- `Record`: a name, the ordered phone list (stored as the phone value
strings), and the optional birthday, stored — as in `Birthday.value` —
as the raw `DD.MM.YYYY` text. -/
structure Record where
  name : String
  phones : List String
  birthday : Option String
deriving DecidableEq, Repr

/-- `Record.add_phone`: appends `Phone(p)`, propagating its failure. -/
def Record.add_phone (r : Record) (p : String) : Except String Record :=
  match mkPhone p with
  | .ok v => .ok { r with phones := r.phones ++ [v] }
  | .error e => .error e

/-- `Record.remove_phone`: keeps the phones whose value differs from
`x`. -/
def Record.remove_phone (r : Record) (x : String) : Record :=
  { r with phones := r.phones.filter (fun p => p != x) }

/-- Outcome of `Record.edit_phone`, together with the record state after
the call (the loop mutates `self.phones` before any exception). -/
inductive EditResult where
  | crash : EditResult
  | invalidNew : Record → EditResult
  | notFound : Record → EditResult
  | ok : Record → EditResult
deriving DecidableEq, Repr

/-- `Record.edit_phone(old, new)`: the loop replaces EVERY phone equal to
`old` by `Phone(new)` (constructed at the first match, so an invalid
`new` raises before any list change); after the loop the code tests the
stale loop variable — the last phone's ORIGINAL value — and raises the
not-found `ValueError` whenever that value differs from `old`, even if
matches were already replaced; on an empty phone list the loop variable
is unbound and the check raises `UnboundLocalError` (`crash`). -/
def Record.edit_phone (r : Record) (old new : String) : EditResult :=
  if r.phones.isEmpty then .crash
  else if !phoneCheck new && r.phones.contains old then .invalidNew r
  else
    let r' : Record := { r with phones := r.phones.map (fun p => if p == old then new else p) }
    if r.phones.getLast? == some old then .ok r' else .notFound r'

/-- `Record.find_phone`: first phone equal to `p`, if any. -/
def Record.find_phone (r : Record) (p : String) : Option String :=
  r.phones.find? (fun q => q == p)

/-- `Record.add_birthday`: overwrites the birthday with `Birthday(raw)`,
propagating its failure. -/
def Record.add_birthday (r : Record) (raw : String) : Except String Record :=
  match mkBirthday raw with
  | .ok v => .ok { r with birthday := some v }
  | .error e => .error e

/-! ## Address book

A Python `dict` preserves insertion order, keeps the position of a key on
overwrite, and appends new keys at the end; it is modelled by an
association list with exactly those operations. -/

/-- `AddressBook.data`: insertion-ordered mapping from name to record. -/
abbrev Book := List (String × Record)

/-- `self.data[record.name.value] = record`: overwrite in place if the
key exists, else append. -/
def AddressBook.add_record (b : Book) (r : Record) : Book :=
  if b.any (fun p => p.1 == r.name) then
    b.map (fun p => if p.1 == r.name then (r.name, r) else p)
  else b ++ [(r.name, r)]

/-- `AddressBook.find`: `self.data.get(name)`. -/
def AddressBook.find (b : Book) (k : String) : Option Record :=
  (b.find? (fun p => p.1 == k)).map Prod.snd

/-- `AddressBook.delete`: `del self.data[name]`; `none` models the
`KeyError` on an absent key. -/
def AddressBook.delete (b : Book) (k : String) : Option Book :=
  if b.any (fun p => p.1 == k) then some (b.filter (fun p => p.1 != k)) else none

/-! ## Upcoming-birthday query (`AddressBook.find_next_birthday`) -/

/-- The exceptions `find_next_birthday` can raise while processing one
record: `attrError` is the `AttributeError` from `user.birthday.value`
when `birthday` is `None`; `parseError` the `ValueError` from
`strptime`; `dateError` the `ValueError` from the `datetime`
constructor (e.g. Feb 29 in a non-leap target year). -/
inductive Crash where
  | attrError : Crash
  | parseError : Crash
  | dateError : Crash
deriving DecidableEq, Repr

/-- `birthday_this_year`: `datetime(today.year, month, day)`, rolled
forward to `today.year + 1` when strictly before `today`; `none` when
the `datetime` constructor raises. -/
def birthdayThisYear (today : Date) (m d : Nat) : Option Date :=
  match mkDate today.year m d with
  | none => none
  | some b0 =>
    if toRD b0 < toRD today then mkDate (today.year + 1) m d else some b0

/-- One iteration of the `find_next_birthday` loop on record `u`:
re-parse the stored birthday text, build the (possibly rolled-forward)
`birthday_this_year`, keep the record when `0 ≤ days_until ≤ 7`, and
emit the congratulation date — shifted to `today + (7 - today.weekday())`
days when `birthday_this_year` falls on a weekend — formatted with
`strftime("%Y.%m.%d")`. -/
def processUser (today : Date) (u : Record) : Except Crash (Option (String × String)) :=
  match u.birthday with
  | none => .error .attrError
  | some raw =>
    match parseDate raw with
    | none => .error .parseError
    | some (d, m, _) =>
      match birthdayThisYear today m d with
      | none => .error .dateError
      | some bty =>
        if 0 ≤ (toRD bty : Int) - (toRD today : Int) ∧ (toRD bty : Int) - (toRD today : Int) ≤ 7 then
          .ok (some (u.name,
            fmtDate (if 5 ≤ weekday bty then addDays today (7 - weekday today) else bty)))
        else .ok none

/-- The `find_next_birthday` loop over `self.data.values()`, collecting
the qualifying entries in enumeration order and propagating the first
exception. -/
def processValues (today : Date) : List Record → Except Crash (List (String × String))
  | [] => .ok []
  | u :: rest =>
    match processUser today u with
    | .error e => .error e
    | .ok none => processValues today rest
    | .ok (some x) =>
      match processValues today rest with
      | .error e => .error e
      | .ok xs => .ok (x :: xs)

/-- `AddressBook.find_next_birthday`: the `today` argument models the
`datetime.today().date()` read (the `weekday` parameter of the Python
method is ignored by its body). -/
def AddressBook.find_next_birthday (b : Book) (today : Date) :
    Except Crash (List (String × String)) :=
  processValues today (b.map Prod.snd)

/-! ## The `add_contact` command handler -/

/-- `add_contact(args, book)` under the `input_error` decorator: returns
the printed message and the book state after the call.  A fresh `Record`
is inserted into the book BEFORE `add_phone` runs, so a phone-validation
failure is reported after the insertion already happened; the in-place
mutation of the found record is modelled as a keyed update. -/
def add_contact (args : List String) (b : Book) : String × Book :=
  match args with
  | name :: phone :: _ =>
    match AddressBook.find b name with
    | none =>
      let fresh : Record := ⟨name, [], none⟩
      let b1 := AddressBook.add_record b fresh
      match mkPhone phone with
      | .ok p => ("Contact added.", b1.map (fun q => if q.1 == name then (q.1, ⟨name, [p], none⟩) else q))
      | .error e => (e, b1)
    | some r =>
      match mkPhone phone with
      | .ok p =>
        ("Contact updated.",
          b.map (fun q => if q.1 == name then (q.1, { r with phones := r.phones ++ [p] }) else q))
      | .error e => (e, b)
  | _ => ("Insufficient arguments. Required: name and phone number.", b)

/-! ## Reachable book states -/

/-- Book states reachable from the empty book by `add_record` and
(successful) `delete` calls. -/
inductive Reachable : Book → Prop where
  | empty : Reachable []
  | add (b : Book) (r : Record) : Reachable b → Reachable (AddressBook.add_record b r)
  | del (b : Book) (k : String) (b' : Book) :
      Reachable b → AddressBook.delete b k = some b' → Reachable b'

/-! ## Theorems -/

/-- Helper: the phone check holds exactly on length-10 strings of
Python digit characters. -/
lemma phoneCheck_iff (raw : String) :
    phoneCheck raw = true ↔ raw.length = 10 ∧ ∀ c ∈ raw.data, pyIsDigit c = true := by
  unfold phoneCheck isdigitStr
  simp only [Bool.and_eq_true, beq_iff_eq, Bool.not_eq_true', List.all_eq_true]
  constructor
  · rintro ⟨h10, _, hall⟩
    exact ⟨h10, hall⟩
  · rintro ⟨h10, hall⟩
    refine ⟨h10, ?_, hall⟩
    cases he : raw.isEmpty
    · rfl
    · have hr : raw = "" := (String.isEmpty_iff raw).mp he
      subst hr
      simp at h10

/-- C5 counterexample: the phone validator accepts ten superscript-two
characters — `str.isdigit` is true of `'²'` — although `'²'` is not a
decimal digit (not ASCII `0`-`9`, and not a Unicode category `Nd`
decimal digit either). -/
theorem phone_decimal_counterexample :
    mkPhone "²²²²²²²²²²" = .ok "²²²²²²²²²²" ∧
    ¬(∀ c ∈ ("²²²²²²²²²²" : String).data, c.isDigit = true) ∧
    isNd '²' = false := by
  refine ⟨rfl, ?_, rfl⟩
  intro hall
  exact absurd (hall '²' (by decide)) (by decide)

/-- C5 (amended): phone-number construction succeeds iff the string has
length exactly 10 and every character is accepted by Python
`str.isdigit` — a Unicode decimal digit of any script or a
`Numeric_Type=Digit` character such as a superscript; otherwise it
fails with the invalid-phone-number validation error.  Length-10
decimal-digit strings are thus accepted, but so are some strings of
non-decimal digit characters. -/
theorem phone_validation (raw : String) :
    (mkPhone raw = .ok raw ↔ raw.length = 10 ∧ ∀ c ∈ raw.data, pyIsDigit c = true) ∧
    (¬(raw.length = 10 ∧ ∀ c ∈ raw.data, pyIsDigit c = true) →
      mkPhone raw = .error "Invalid phone number") := by
  have hiff := phoneCheck_iff raw
  by_cases h : phoneCheck raw = true
  · have hp := hiff.mp h
    refine ⟨?_, fun hc => absurd hp hc⟩
    unfold mkPhone
    rw [if_pos h]
    exact iff_of_true rfl hp
  · have hp : ¬(raw.length = 10 ∧ ∀ c ∈ raw.data, pyIsDigit c = true) :=
      fun hc => h (hiff.mpr hc)
    refine ⟨?_, fun _ => ?_⟩
    · unfold mkPhone
      rw [if_neg h]
      exact iff_of_false (by simp) hp
    · unfold mkPhone
      rw [if_neg h]

/-- C5 witness: a valid and an invalid concrete phone string. -/
theorem phone_validation_example :
    (mkPhone "0123456789" = .ok "0123456789" ↔
      ("0123456789" : String).length = 10 ∧
        ∀ c ∈ ("0123456789" : String).data, pyIsDigit c = true) ∧
    mkPhone "12ab" = .error "Invalid phone number" :=
  ⟨(phone_validation "0123456789").1, (phone_validation "12ab").2 (by decide)⟩

/-- C7: removing a phone keeps exactly the phones different from `x`,
preserves their relative order (the result is a sublist), is a no-op when
nothing matches, and is idempotent. -/
theorem remove_phone_spec (r : Record) (x : String) :
    (∀ p, p ∈ (r.remove_phone x).phones ↔ p ∈ r.phones ∧ p ≠ x) ∧
    (r.remove_phone x).phones.Sublist r.phones ∧
    ((∀ p ∈ r.phones, p ≠ x) → r.remove_phone x = r) ∧
    (r.remove_phone x).remove_phone x = r.remove_phone x := by
  refine ⟨?_, ?_, ?_, ?_⟩
  · intro p
    simp [Record.remove_phone, List.mem_filter, bne_iff_ne]
  · exact List.filter_sublist _
  · intro h
    show { r with phones := r.phones.filter (fun p => p != x) } = r
    have he : r.phones.filter (fun p => p != x) = r.phones :=
      List.filter_eq_self.mpr (fun a ha => by simpa [bne_iff_ne] using h a ha)
    rw [he]
  · simp only [Record.remove_phone, List.filter_filter, Bool.and_self]

/-- C7 witness: concrete no-op and idempotence instances. -/
theorem remove_phone_spec_example :
    Record.remove_phone ⟨"Ann", ["1111111111", "2222222222"], none⟩ "3333333333"
      = ⟨"Ann", ["1111111111", "2222222222"], none⟩ ∧
    Record.remove_phone
        (Record.remove_phone ⟨"Ann", ["1111111111", "1111111111", "2222222222"], none⟩ "1111111111")
        "1111111111"
      = Record.remove_phone ⟨"Ann", ["1111111111", "1111111111", "2222222222"], none⟩ "1111111111" :=
  ⟨(remove_phone_spec ⟨"Ann", ["1111111111", "2222222222"], none⟩ "3333333333").2.2.1 (by decide),
   (remove_phone_spec ⟨"Ann", ["1111111111", "1111111111", "2222222222"], none⟩ "1111111111").2.2.2⟩

/-- C1: the code's `edit_phone` does not implement first-match
replacement.  On `["1111111111", "2222222222"]`, editing the first phone
replaces it but STILL raises the not-found error, because the post-loop
check looks at the stale loop variable (the last phone's original
value); and with duplicated phones every match is replaced, not only the
first. -/
theorem edit_phone_code_behavior :
    Record.edit_phone ⟨"Ann", ["1111111111", "2222222222"], none⟩ "1111111111" "3333333333"
      = EditResult.notFound ⟨"Ann", ["3333333333", "2222222222"], none⟩ ∧
    Record.edit_phone ⟨"Bob", ["1111111111", "1111111111"], none⟩ "1111111111" "2222222222"
      = EditResult.ok ⟨"Bob", ["2222222222", "2222222222"], none⟩ := ⟨rfl, rfl⟩

/-- C4: the upcoming-birthday query does not skip records without a
birthday: on a book whose only record has `birthday = None` it raises
`AttributeError` instead of succeeding. -/
theorem birthdays_crash_on_missing_birthday :
    AddressBook.find_next_birthday [("Alice", ⟨"Alice", ["0123456789"], none⟩)] ⟨2024, 6, 10⟩
      = Except.error Crash.attrError := rfl

/-- C2: whenever the (possibly rolled-forward) birthday-this-year date of
a record lands inside the 7-day window and falls on a Saturday or Sunday,
the emitted congratulation date is `today + (7 - today.weekday())` days —
the Monday after `today`, not the Monday after the birthday. -/
theorem upcoming_weekend_shift (today : Date) (u : Record) (raw : String)
    (d m y : Nat) (bty : Date)
    (hb : u.birthday = some raw)
    (hp : parseDate raw = some (d, m, y))
    (ht : birthdayThisYear today m d = some bty)
    (h0 : 0 ≤ (toRD bty : Int) - (toRD today : Int))
    (h7 : (toRD bty : Int) - (toRD today : Int) ≤ 7)
    (hw : 5 ≤ weekday bty) :
    processUser today u
      = .ok (some (u.name, fmtDate (addDays today (7 - weekday today)))) := by
  unfold processUser
  simp only [hb, hp, ht]
  rw [if_pos ⟨h0, h7⟩, if_pos hw]

/-- C2 witness: today = 2024-06-10 (a Monday) and birthday 15.06.1990
(Saturday in 2024) yield congratulation date 2024-06-17, the Monday after
`today`. -/
theorem upcoming_weekend_shift_example :
    fmtDate (addDays ⟨2024, 6, 10⟩ (7 - weekday ⟨2024, 6, 10⟩)) = "2024.06.17" ∧
    processUser ⟨2024, 6, 10⟩ ⟨"Alice", [], some "15.06.1990"⟩
      = .ok (some ("Alice", fmtDate (addDays ⟨2024, 6, 10⟩ (7 - weekday ⟨2024, 6, 10⟩)))) :=
  ⟨rfl,
   upcoming_weekend_shift ⟨2024, 6, 10⟩ ⟨"Alice", [], some "15.06.1990"⟩ "15.06.1990"
     15 6 1990 ⟨2024, 6, 15⟩ rfl rfl rfl (by decide) (by decide) (by decide)⟩

/-- C3: a record with a birthday is included in the query result exactly
when `0 ≤ daysUntil ≤ 7`, where `daysUntil` is the day difference between
the (rolled-forward) birthday-this-year date and `today`. -/
theorem upcoming_window_iff (today : Date) (u : Record) (raw : String)
    (d m y : Nat) (bty : Date)
    (hb : u.birthday = some raw)
    (hp : parseDate raw = some (d, m, y))
    (ht : birthdayThisYear today m d = some bty) :
    (∃ e, processUser today u = .ok (some e)) ↔
      0 ≤ (toRD bty : Int) - (toRD today : Int) ∧
        (toRD bty : Int) - (toRD today : Int) ≤ 7 := by
  unfold processUser
  simp only [hb, hp, ht]
  by_cases h : 0 ≤ (toRD bty : Int) - (toRD today : Int) ∧
      (toRD bty : Int) - (toRD today : Int) ≤ 7
  · rw [if_pos h]
    exact iff_of_true ⟨_, rfl⟩ h
  · rw [if_neg h]
    exact iff_of_false (by rintro ⟨e, he⟩; simp at he) h

/-- C3 witness: with today = 2024-06-10, birthday 12.06.1990 is included
(2 days out, emitted unshifted as 2024-06-12) while birthday 20.06.1990
is excluded (10 days out). -/
theorem upcoming_window_iff_example :
    ((∃ e, processUser ⟨2024, 6, 10⟩ ⟨"Carol", [], some "12.06.1990"⟩ = .ok (some e)) ↔
      0 ≤ (toRD ⟨2024, 6, 12⟩ : Int) - (toRD ⟨2024, 6, 10⟩ : Int) ∧
        (toRD ⟨2024, 6, 12⟩ : Int) - (toRD ⟨2024, 6, 10⟩ : Int) ≤ 7) ∧
    ((∃ e, processUser ⟨2024, 6, 10⟩ ⟨"Bob", [], some "20.06.1990"⟩ = .ok (some e)) ↔
      0 ≤ (toRD ⟨2024, 6, 20⟩ : Int) - (toRD ⟨2024, 6, 10⟩ : Int) ∧
        (toRD ⟨2024, 6, 20⟩ : Int) - (toRD ⟨2024, 6, 10⟩ : Int) ≤ 7) ∧
    processUser ⟨2024, 6, 10⟩ ⟨"Carol", [], some "12.06.1990"⟩
      = .ok (some ("Carol", "2024.06.12")) ∧
    processUser ⟨2024, 6, 10⟩ ⟨"Bob", [], some "20.06.1990"⟩ = .ok none :=
  ⟨upcoming_window_iff ⟨2024, 6, 10⟩ ⟨"Carol", [], some "12.06.1990"⟩ "12.06.1990"
     12 6 1990 ⟨2024, 6, 12⟩ rfl rfl rfl,
   upcoming_window_iff ⟨2024, 6, 10⟩ ⟨"Bob", [], some "20.06.1990"⟩ "20.06.1990"
     20 6 1990 ⟨2024, 6, 20⟩ rfl rfl rfl,
   rfl, rfl⟩

/-- Helper: `processUser` reads only the name and the birthday of the
record. -/
lemma processUser_congr (today : Date) (u v : Record)
    (hn : u.name = v.name) (hb : u.birthday = v.birthday) :
    processUser today u = processUser today v := by
  cases u
  cases v
  cases hn
  cases hb
  rfl

/-- Helper: the query result is determined by `today` and the stored
names and birthdays. -/
lemma processValues_congr (today : Date) (b1 b2 : List Record)
    (h : b1.map (fun u => (u.name, u.birthday)) = b2.map (fun u => (u.name, u.birthday))) :
    processValues today b1 = processValues today b2 := by
  induction b1 generalizing b2 with
  | nil =>
    cases b2 with
    | nil => rfl
    | cons v t => simp at h
  | cons u rest ih =>
    cases b2 with
    | nil => simp at h
    | cons v rest2 =>
      simp only [List.map_cons, List.cons.injEq, Prod.mk.injEq] at h
      obtain ⟨⟨hn, hbd⟩, ht⟩ := h
      unfold processValues
      rw [processUser_congr today u v hn hbd, ih rest2 ht]

/-- C9: the upcoming-birthday query is a pure function of the supplied
`today` (the modelled `datetime.today()` read) and the stored records:
any two books whose records agree on names and birthdays — whatever
their keys or phone lists — produce identical results. -/
theorem upcoming_birthdays_pure (b1 b2 : Book) (today : Date)
    (h : (b1.map Prod.snd).map (fun u => (u.name, u.birthday))
      = (b2.map Prod.snd).map (fun u => (u.name, u.birthday))) :
    AddressBook.find_next_birthday b1 today = AddressBook.find_next_birthday b2 today :=
  processValues_congr today (b1.map Prod.snd) (b2.map Prod.snd) h

/-- C9 witness: two books with different keys and phone lists but the
same names and birthdays give the same query result. -/
theorem upcoming_birthdays_pure_example :
    AddressBook.find_next_birthday
        [("Carol", ⟨"Carol", ["0123456789"], some "12.06.1990"⟩)] ⟨2024, 6, 10⟩
      = AddressBook.find_next_birthday
        [("other key", ⟨"Carol", [], some "12.06.1990"⟩)] ⟨2024, 6, 10⟩ :=
  upcoming_birthdays_pure
    [("Carol", ⟨"Carol", ["0123456789"], some "12.06.1990"⟩)]
    [("other key", ⟨"Carol", [], some "12.06.1990"⟩)] ⟨2024, 6, 10⟩ rfl

/-- Helper: overwriting an existing key makes it the first (and only)
hit of a lookup. -/
lemma find?_map_overwrite (b : Book) (k : String) (v : Record)
    (h : b.any (fun p => p.1 == k) = true) :
    (b.map (fun p => if p.1 == k then (k, v) else p)).find? (fun p => p.1 == k)
      = some (k, v) := by
  induction b with
  | nil => simp at h
  | cons p t ih =>
    by_cases hp : (p.1 == k) = true
    · rw [List.map_cons, if_pos hp]
      exact List.find?_cons_of_pos _ (by simp)
    · have ht : t.any (fun p => p.1 == k) = true := by
        rcases (List.any_eq_true.mp h) with ⟨q, hq, hqk⟩
        rcases List.mem_cons.mp hq with hq1 | hq2
        · exact absurd (hq1 ▸ hqk) hp
        · exact List.any_eq_true.mpr ⟨q, hq2, hqk⟩
      have hstep : List.find? (fun q => q.1 == k)
          (p :: List.map (fun q => if q.1 == k then (k, v) else q) t)
          = List.find? (fun q => q.1 == k)
            (List.map (fun q => if q.1 == k then (k, v) else q) t) :=
        List.find?_cons_of_neg _ hp
      rw [List.map_cons, if_neg hp, hstep]
      exact ih ht

/-- Helper: appending a fresh key to a book that lacks it makes it the
lookup result. -/
lemma find?_append_absent (b : Book) (k : String) (v : Record)
    (h : b.any (fun p => p.1 == k) = false) :
    (b ++ [(k, v)]).find? (fun p => p.1 == k) = some (k, v) := by
  induction b with
  | nil => simp [List.find?]
  | cons p t ih =>
    simp only [List.any_cons, Bool.or_eq_false_iff] at h
    obtain ⟨hp, ht⟩ := h
    rw [List.cons_append, List.find?_cons_of_neg _ (by simp [hp])]
    exact ih ht

/-- Helper: `find` after `add_record` at the record's own name returns
that record. -/
lemma find_add_record_self (b : Book) (r : Record) :
    AddressBook.find (AddressBook.add_record b r) r.name = some r := by
  unfold AddressBook.add_record AddressBook.find
  cases h : b.any (fun p => p.1 == r.name) with
  | true =>
    rw [if_pos rfl, find?_map_overwrite b r.name r h]
    rfl
  | false =>
    rw [if_neg (by simp), find?_append_absent b r.name r h]
    rfl

/-- Helper: on every reachable book state, each stored record's name is
the key it is stored under. -/
lemma reachable_key_inv (b : Book) (hb : Reachable b) :
    ∀ k r, (k, r) ∈ b → r.name = k := by
  induction hb with
  | empty =>
    intro k r h
    simp at h
  | add b0 r0 _ ih =>
    intro k r h
    unfold AddressBook.add_record at h
    split at h
    · rw [List.mem_map] at h
      obtain ⟨p, hp, he⟩ := h
      split at he
      · rw [Prod.mk.injEq] at he
        obtain ⟨hk, hr⟩ := he
        rw [← hr]
        exact hk
      · rw [he] at hp
        exact ih k r hp
    · rw [List.mem_append] at h
      rcases h with h | h
      · exact ih k r h
      · rw [List.mem_singleton, Prod.mk.injEq] at h
        obtain ⟨hk, hr⟩ := h
        rw [hr, hk]
  | del b0 k0 b' _ hdel ih =>
    intro k r h
    unfold AddressBook.delete at hdel
    split at hdel
    · rw [Option.some.injEq] at hdel
      rw [← hdel] at h
      exact ih k r (List.mem_of_mem_filter h)
    · exact absurd hdel (by simp)

/-- C8: on every book reachable from the empty book by `add_record` and
`delete`, each record is stored under its own name; and `add_record`
keys the entry by the record's name, the inserted record replacing any
prior entry entirely. -/
theorem book_key_invariant :
    (∀ b : Book, Reachable b → ∀ k r, (k, r) ∈ b → r.name = k) ∧
    (∀ (b : Book) (r : Record),
      AddressBook.find (AddressBook.add_record b r) r.name = some r) :=
  ⟨reachable_key_inv, find_add_record_self⟩

/-- C8 witness: a two-step reachable book (insert then overwrite) and a
concrete overwrite lookup. -/
theorem book_key_invariant_example :
    (⟨"Ann", ["2222222222"], none⟩ : Record).name = "Ann" ∧
    AddressBook.find
        (AddressBook.add_record [("Ann", ⟨"Ann", ["1111111111"], none⟩)]
          ⟨"Ann", ["2222222222"], none⟩) "Ann"
      = some ⟨"Ann", ["2222222222"], none⟩ :=
  ⟨book_key_invariant.1
      (AddressBook.add_record (AddressBook.add_record [] ⟨"Ann", ["1111111111"], none⟩)
        ⟨"Ann", ["2222222222"], none⟩)
      (Reachable.add _ _ (Reachable.add _ _ Reachable.empty))
      "Ann" ⟨"Ann", ["2222222222"], none⟩ (by decide),
   book_key_invariant.2 [("Ann", ⟨"Ann", ["1111111111"], none⟩)] ⟨"Ann", ["2222222222"], none⟩⟩

/-- C10: calling the add-contact command with an unknown name and an
invalid phone string reports the phone validation error, yet the book
comes back mutated: it now stores a record with that name and an empty
phone list, because the insertion happens before the phone is
validated. -/
theorem add_contact_inserts_before_validation (b : Book) (name phone : String)
    (rest : List String)
    (hfind : AddressBook.find b name = none)
    (hph : phoneCheck phone = false) :
    (add_contact (name :: phone :: rest) b).1 = "Invalid phone number" ∧
    AddressBook.find (add_contact (name :: phone :: rest) b).2 name
      = some ⟨name, [], none⟩ := by
  have hmk : mkPhone phone = .error "Invalid phone number" := by
    unfold mkPhone
    rw [hph]
    rfl
  unfold add_contact
  simp only [hfind, hmk]
  exact ⟨trivial, find_add_record_self b ⟨name, [], none⟩⟩

/-- C10 witness: adding name `Ann` with invalid phone `12` to the empty
book reports the validation error and still inserts `Ann` with no
phones. -/
theorem add_contact_inserts_before_validation_example :
    (add_contact ["Ann", "12"] []).1 = "Invalid phone number" ∧
    AddressBook.find (add_contact ["Ann", "12"] []).2 "Ann" = some ⟨"Ann", [], none⟩ :=
  add_contact_inserts_before_validation [] "Ann" "12" [] rfl rfl

/-- Helper: every month length is at most 31. -/
lemma daysInMonth_le_31 (y m : Nat) : daysInMonth y m ≤ 31 := by
  unfold daysInMonth
  split
  · split <;> omega
  · split <;> omega

/-- Helper: the `datetime` constructor succeeds exactly on in-range
calendar dates. -/
lemma mkDate_isSome_iff (y m d : Nat) :
    (mkDate y m d).isSome = true ↔
      1 ≤ y ∧ y ≤ 9999 ∧ 1 ≤ m ∧ m ≤ 12 ∧ 1 ≤ d ∧ d ≤ daysInMonth y m := by
  unfold mkDate
  by_cases h : 1 ≤ y ∧ y ≤ 9999 ∧ 1 ≤ m ∧ m ≤ 12 ∧ 1 ≤ d ∧ d ≤ daysInMonth y m
  · rw [if_pos h]
    exact iff_of_true rfl h
  · rw [if_neg h]
    exact iff_of_false (by simp) h

/-- Helper: a decimal-digit character is not the dot separator. -/
lemma digit_ne_dot (c : Char) (h : c.isDigit = true) : ¬(c = '.') := by
  intro he
  subst he
  exact absurd h (by decide)

/-- Helper: two characters are equal exactly when their code points
are. -/
lemma char_eq_iff_toNat (a b : Char) : a = b ↔ a.toNat = b.toNat := by
  constructor
  · intro h
    rw [h]
  · intro h
    have hc := congrArg Char.ofNat h
    rwa [Char.ofNat_toNat, Char.ofNat_toNat] at hc

/-- Helper: character order is code-point order. -/
lemma char_le_iff_toNat (a b : Char) : a ≤ b ↔ a.toNat ≤ b.toNat := by
  rw [Char.le_def, UInt32.le_def, BitVec.le_def]
  exact Iff.rfl

/-- Helper: ASCII digit characters occupy code points 48..57. -/
lemma isDigit_toNat (c : Char) (h : c.isDigit = true) :
    48 ≤ c.toNat ∧ c.toNat ≤ 57 := by
  unfold Char.isDigit at h
  simp only [Bool.and_eq_true, decide_eq_true_eq, ge_iff_le] at h
  obtain ⟨h1, h2⟩ := h
  rw [UInt32.le_def, BitVec.le_def] at h1 h2
  exact ⟨h1, h2⟩

/-- Helper: ASCII digits are Unicode decimal digits. -/
lemma ascii_isNd (c : Char) (h48 : 48 ≤ c.toNat) (h57 : c.toNat ≤ 57) :
    isNd c = true := by
  unfold isNd
  rw [List.any_eq_true]
  refine ⟨48, by decide, ?_⟩
  simp only [Bool.and_eq_true, decide_eq_true_eq]
  exact ⟨h48, by omega⟩

/-- Helper: on ASCII digits `ndVal` is the code point minus 48. -/
lemma ndVal_ascii (c : Char) (h48 : 48 ≤ c.toNat) (h57 : c.toNat ≤ 57) :
    ndVal c = c.toNat - 48 := by
  have hfind : ndRunStarts.find? (fun s => s ≤ c.toNat && c.toNat ≤ s + 9)
      = some 48 := by
    unfold ndRunStarts
    exact List.find?_cons_of_pos _
      (by simp only [Bool.and_eq_true, decide_eq_true_eq]; exact ⟨h48, by omega⟩)
  unfold ndVal
  rw [hfind]

/-- Helper: an accepted character list denotes a date the `datetime`
constructor accepts. -/
lemma parseDateChars_valid (cs : List Char) (d m y : Nat)
    (h : parseDateChars cs = some (d, m, y)) : (mkDate y m d).isSome = true := by
  unfold parseDateChars at h
  rcases hsp : splitDots cs with _ | ⟨ds, _ | ⟨ms, _ | ⟨ys, _ | ⟨e4, tl⟩⟩⟩⟩ <;>
      rw [hsp] at h <;> dsimp only at h
  · exact absurd h (by simp)
  · exact absurd h (by simp)
  · exact absurd h (by simp)
  · split at h
    · split at h
      · rename_i v heq
        rw [Option.some.injEq, Prod.mk.injEq, Prod.mk.injEq] at h
        obtain ⟨hd, hm, hy⟩ := h
        subst hd
        subst hm
        subst hy
        rw [heq]
        rfl
      · exact absurd h (by simp)
    · exact absurd h (by simp)
  · exact absurd h (by simp)

/-- C6 counterexample: the code accepts `5.6.1990` (un-zero-padded
single-digit day and month) and `1٥.06.1990` (ASCII `1` followed by the
Arabic-Indic digit five, matched by the `\d` of the day pattern and
valued 15 by `int()`), neither of which matches the strict `DD.MM.YYYY`
pattern. -/
theorem strict_pattern_counterexample :
    parseDate "5.6.1990" = some (5, 6, 1990) ∧
    parseDate "1٥.06.1990" = some (15, 6, 1990) ∧
    matchesDDMMYYYY "5.6.1990" = false ∧
    matchesDDMMYYYY "1٥.06.1990" = false := ⟨rfl, rfl, rfl, rfl⟩

/-- C6 (amended): birthday parsing accepts every strict `DD.MM.YYYY`
string denoting a valid calendar date (though not only those: the
`strptime` patterns are lenient, as the counterexample shows), every
accepted string denotes a calendar date the `datetime` constructor
accepts (day and month in range for the denoted year, year 1..9999),
and construction fails with the date-format validation error exactly on
the strings the parser rejects. -/
theorem birthday_parse_amended (raw : String) :
    (matchesDDMMYYYY raw = true → (parseDate raw).isSome = true) ∧
    (∀ d m y, parseDate raw = some (d, m, y) → (mkDate y m d).isSome = true) ∧
    ((parseDate raw).isSome = false →
      mkBirthday raw = .error "Incorrect date format, please enter in the format: dd.mm.yyyy") ∧
    ((parseDate raw).isSome = true → mkBirthday raw = .ok raw) := by
  refine ⟨?_, ?_, ?_, ?_⟩
  · -- strict pattern implies parse success
    intro h
    unfold matchesDDMMYYYY at h
    rcases hcs : raw.data with
        _ | ⟨c0, _ | ⟨c1, _ | ⟨c2, _ | ⟨c3, _ | ⟨c4, _ | ⟨c5, _ | ⟨c6, _ | ⟨c7,
          _ | ⟨c8, _ | ⟨c9, _ | ⟨c10, tl⟩⟩⟩⟩⟩⟩⟩⟩⟩⟩⟩ <;> rw [hcs] at h <;>
        dsimp only at h <;>
      first
      | exact absurd h (by decide)
      | skip
    simp only [List.all_cons, List.all_nil, Bool.and_true, Bool.and_eq_true,
      beq_iff_eq] at h
    obtain ⟨⟨⟨h2dot, h5dot⟩, hd0, hd1, hd3, hd4, hd6, hd7, hd8, hd9⟩, hmk⟩ := h
    subst h2dot
    subst h5dot
    have hsplit : splitDots [c0, c1, '.', c3, c4, '.', c6, c7, c8, c9]
        = [[c0, c1], [c3, c4], [c6, c7, c8, c9]] := by
      simp [splitDots, digit_ne_dot c0 hd0, digit_ne_dot c1 hd1,
        digit_ne_dot c3 hd3, digit_ne_dot c4 hd4, digit_ne_dot c6 hd6,
        digit_ne_dot c7 hd7, digit_ne_dot c8 hd8, digit_ne_dot c9 hd9]
    obtain ⟨hy1, hy2, hm1, hm2, hdd1, hdd2⟩ := (mkDate_isSome_iff _ _ _).mp hmk
    have hd31 : digitsToNat [c0, c1] ≤ 31 := le_trans hdd2 (daysInMonth_le_31 _ _)
    obtain ⟨h0l, h0r⟩ := isDigit_toNat c0 hd0
    obtain ⟨h1l, h1r⟩ := isDigit_toNat c1 hd1
    obtain ⟨h3l, h3r⟩ := isDigit_toNat c3 hd3
    obtain ⟨h4l, h4r⟩ := isDigit_toNat c4 hd4
    obtain ⟨h6l, h6r⟩ := isDigit_toNat c6 hd6
    obtain ⟨h7l, h7r⟩ := isDigit_toNat c7 hd7
    obtain ⟨h8l, h8r⟩ := isDigit_toNat c8 hd8
    obtain ⟨h9l, h9r⟩ := isDigit_toNat c9 hd9
    have hdv : digitsToNat [c0, c1] = 10 * (c0.toNat - 48) + (c1.toNat - 48) := by
      simp [digitsToNat]
    have hmv : digitsToNat [c3, c4] = 10 * (c3.toNat - 48) + (c4.toNat - 48) := by
      simp [digitsToNat]
    have hday : dayPat [c0, c1] = true := by
      have hc : c0.toNat = 48 ∨ c0.toNat = 49 ∨ c0.toNat = 50 ∨ c0.toNat = 51 := by
        omega
      rcases hc with hc | hc | hc | hc
      · have he : c0 = '0' := (char_eq_iff_toNat c0 '0').mpr (by rw [hc]; decide)
        have hl : '1' ≤ c1 := (char_le_iff_toNat '1' c1).mpr
          (by show (49 : Nat) ≤ c1.toNat; omega)
        have hr : c1 ≤ '9' := (char_le_iff_toNat c1 '9').mpr
          (by show c1.toNat ≤ (57 : Nat); omega)
        subst he
        simp [dayPat, hl, hr]
      · have he : c0 = '1' := (char_eq_iff_toNat c0 '1').mpr (by rw [hc]; decide)
        subst he
        simp [dayPat, ascii_isNd c1 h1l h1r]
      · have he : c0 = '2' := (char_eq_iff_toNat c0 '2').mpr (by rw [hc]; decide)
        subst he
        simp [dayPat, ascii_isNd c1 h1l h1r]
      · have he : c0 = '3' := (char_eq_iff_toNat c0 '3').mpr (by rw [hc]; decide)
        have hc1 : c1.toNat = 48 ∨ c1.toNat = 49 := by omega
        subst he
        rcases hc1 with hc1 | hc1
        · have he1 : c1 = '0' := (char_eq_iff_toNat c1 '0').mpr (by rw [hc1]; decide)
          subst he1
          simp [dayPat]
        · have he1 : c1 = '1' := (char_eq_iff_toNat c1 '1').mpr (by rw [hc1]; decide)
          subst he1
          simp [dayPat]
    have hmonth : monthPat [c3, c4] = true := by
      have hc : c3.toNat = 48 ∨ c3.toNat = 49 := by omega
      rcases hc with hc | hc
      · have he : c3 = '0' := (char_eq_iff_toNat c3 '0').mpr (by rw [hc]; decide)
        have hl : '1' ≤ c4 := (char_le_iff_toNat '1' c4).mpr
          (by show (49 : Nat) ≤ c4.toNat; omega)
        have hr : c4 ≤ '9' := (char_le_iff_toNat c4 '9').mpr
          (by show c4.toNat ≤ (57 : Nat); omega)
        subst he
        simp [monthPat, hl, hr]
      · have he : c3 = '1' := (char_eq_iff_toNat c3 '1').mpr (by rw [hc]; decide)
        have hl : '0' ≤ c4 := (char_le_iff_toNat '0' c4).mpr
          (by show (48 : Nat) ≤ c4.toNat; omega)
        have hr : c4 ≤ '2' := (char_le_iff_toNat c4 '2').mpr
          (by show c4.toNat ≤ (50 : Nat); omega)
        subst he
        simp [monthPat, hl, hr]
    have hyear : yearPat [c6, c7, c8, c9] = true := by
      simp [yearPat, ascii_isNd c6 h6l h6r, ascii_isNd c7 h7l h7r,
        ascii_isNd c8 h8l h8r, ascii_isNd c9 h9l h9r]
    have hnd01 : ndToNat [c0, c1] = digitsToNat [c0, c1] := by
      simp [ndToNat, digitsToNat, ndVal_ascii c0 h0l h0r, ndVal_ascii c1 h1l h1r]
    have hnd34 : ndToNat [c3, c4] = digitsToNat [c3, c4] := by
      simp [ndToNat, digitsToNat, ndVal_ascii c3 h3l h3r, ndVal_ascii c4 h4l h4r]
    have hnd69 : ndToNat [c6, c7, c8, c9] = digitsToNat [c6, c7, c8, c9] := by
      simp [ndToNat, digitsToNat, ndVal_ascii c6 h6l h6r, ndVal_ascii c7 h7l h7r,
        ndVal_ascii c8 h8l h8r, ndVal_ascii c9 h9l h9r]
    obtain ⟨v, hv⟩ := Option.isSome_iff_exists.mp hmk
    unfold parseDate
    rw [hcs]
    unfold parseDateChars
    rw [hsplit]
    dsimp only
    rw [hnd01, hnd34, hnd69]
    simp [hday, hmonth, hyear, hv]
  · -- every accepted string denotes a valid calendar date
    intro d m y h
    exact parseDateChars_valid raw.data d m y h
  · -- failures report the date-format error
    intro h
    unfold mkBirthday
    cases hp : parseDate raw with
    | none => rfl
    | some v =>
      rw [hp] at h
      simp at h
  · -- successes store the raw text
    intro h
    unfold mkBirthday
    cases hp : parseDate raw with
    | none =>
      rw [hp] at h
      simp at h
    | some v => rfl

/-- C6 witness: a strict valid date is accepted, a calendar-invalid
string is rejected with the date-format error, a valid string is
stored as its raw text. -/
theorem birthday_parse_amended_example :
    (parseDate "29.02.2024").isSome = true ∧
    mkBirthday "31.04.2020"
      = .error "Incorrect date format, please enter in the format: dd.mm.yyyy" ∧
    mkBirthday "29.02.2024" = .ok "29.02.2024" :=
  ⟨(birthday_parse_amended "29.02.2024").1 rfl,
   (birthday_parse_amended "31.04.2020").2.2.1 rfl,
   (birthday_parse_amended "29.02.2024").2.2.2 rfl⟩

end HW7
